import Mathlib

/-!
Shallow embedding of the CORD stream pallet (`src/pallets/stream/src/lib.rs`):
the record registry state machine with its four stores (Record Store `streams`,
Commit Log `commits`, Link Table `links`, Hash Index `hashes`) and the three
dispatchables `create`, `update`, `set_status`.

Identifiers, hashes, controllers, cids and block numbers are modelled as `Nat`.
External collaborators (origin resolution, cid validation, schema validation,
the block-number clock) are supplied through an `Env` record, so theorems
quantify over every collaborator behaviour.

`update` contains a Rust `unwrap()` on a possibly-`None` field: its embedding
returns `Option (State × Option Err)`, where `none` models the panic.
-/

namespace Cord

/-- Embeds `enum Error` of the pallet (lib.rs lines 89-113), together with the
errors propagated from external collaborators: `BadOrigin` for a failing
`ensure_origin`, `SchemaError` for `pallet_schema` statuses, `CidError` for a
failing cid-encoding validation. -/
inductive Err
  | InvalidRequest
  | SameIdentifierAndHash
  | StreamAlreadyAnchored
  | StreamNotFound
  | StreamRevoked
  | InvalidCidEncoding
  | CidAlreadyAnchored
  | StatusChangeNotRequired
  | UnauthorizedOperation
  | StreamLinkNotFound
  | StreamLinkRevoked
  | BadOrigin
  | SchemaError (code : Nat)
  | CidError (code : Nat)
  deriving DecidableEq, Repr

/-- Embeds `enum StreamCommitOf` (the `commit` kind of a history entry). -/
inductive StreamCommitOf
  | Genesis
  | Update
  | StatusChange
  deriving DecidableEq, Repr

/-- Embeds `struct StreamDetails` (the current state of one stream record). -/
structure StreamDetails where
  hash : Nat
  cid : Option Nat
  parent_cid : Option Nat
  schema : Option Nat
  link : Option Nat
  controller : Nat
  block : Nat
  revoked : Bool
  deriving DecidableEq, Repr

/-- Embeds `struct StreamCommit` (one append-only history entry). -/
structure StreamCommit where
  hash : Nat
  cid : Option Nat
  block : Nat
  commit : StreamCommitOf
  deriving DecidableEq, Repr

/-- Embeds `struct StreamLink` (one link declaration, stored under the target). -/
structure StreamLink where
  identifier : Nat
  controller : Nat
  deriving DecidableEq, Repr

/-- The four on-chain stores of the pallet (lib.rs lines 51-73):
`Streams`, `Commits`, `Links`, `Hashes`, each a `StorageMap`. A missing
`Commits`/`Links` entry and an empty vector are observationally the same for
this pallet, so both are modelled as `List`-valued total maps. -/
structure State where
  streams : Nat → Option StreamDetails
  commits : Nat → List StreamCommit
  links : Nat → List StreamLink
  hashes : Nat → Option Nat

/-- The external collaborators consumed by the dispatchables:
`ensure_origin` (caller to controller), `SchemaDetails::is_valid` for cid
encodings, `SchemaDetails::schema_status`, and the block-number clock. -/
structure Env where
  ensureOrigin : Nat → Except Err Nat
  cidIsValid : Nat → Except Err Unit
  schemaStatus : Nat → Nat → Except Err Unit
  blockNumber : Nat

/-- The genesis chain state: all four stores empty. -/
def State.initial : State :=
  { streams := fun _ => none
    commits := fun _ => []
    links := fun _ => []
    hashes := fun _ => none }

/-- `StorageMap::insert` on `Streams`. -/
def insertStream (s : State) (identifier : Nat) (d : StreamDetails) : State :=
  { s with streams := fun k => if k = identifier then some d else s.streams k }

/-- `StorageMap::insert` on `Hashes`. -/
def insertHash (s : State) (hash identifier : Nat) : State :=
  { s with hashes := fun k => if k = hash then some identifier else s.hashes k }

/-- Modelled from the spec: `StreamCommit::store_tx` is defined in the module
`streams.rs`, which is not among the sources. §4.3 gives the Commit Log
contract: `append(record_id, entry)`, entries ordered by the monotonic
counter, never reordered or removed, and the contract lists no error. -/
def store_tx (s : State) (identifier : Nat) (entry : StreamCommit) : State :=
  { s with commits := fun k => if k = identifier then s.commits k ++ [entry] else s.commits k }

/-- Modelled from the spec: `StreamLink::link_tx` is defined in the module
`streams.rs`, which is not among the sources. §4.4 gives the Link Table
contract: `add_link(target_id, entry)` appends the entry under the target,
and the contract lists no error. -/
def link_tx (s : State) (target : Nat) (entry : StreamLink) : State :=
  { s with links := fun k => if k = target then s.links k ++ [entry] else s.links k }

/-- The write phase of `create` (lib.rs lines 156-185): append the `Genesis`
commit, index the hash, insert the record with `parent_cid = None` and
`revoked = false`. Nothing past this point can fail. -/
def createWrites (env : Env) (s : State) (identifier hash : Nat)
    (cid schema link : Option Nat) (controller : Nat) : State × Option Err :=
  let s1 := store_tx s identifier
    { hash := hash, cid := cid, block := env.blockNumber, commit := StreamCommitOf.Genesis }
  let s2 := insertHash s1 hash identifier
  let s3 := insertStream s2 identifier
    { hash := hash, cid := cid, parent_cid := none, schema := schema, link := link
      controller := controller, block := env.blockNumber, revoked := false }
  (s3, none)

/-- Embeds `Pallet::create` (lib.rs lines 126-186). Checks in source order:
origin, `hash != identifier`, cid encoding, `identifier` not anchored, schema
status, link target present and not revoked (then `link_tx`), then the writes. -/
def create (env : Env) (s : State) (origin identifier hash : Nat)
    (cid schema link : Option Nat) : State × Option Err :=
  match env.ensureOrigin origin with
  | Except.error e => (s, some e)
  | Except.ok controller =>
    if hash = identifier then (s, some Err.SameIdentifierAndHash)
    else
      match (match cid with
             | some c => env.cidIsValid c
             | none => Except.ok ()) with
      | Except.error e => (s, some e)
      | Except.ok _ =>
        if (s.streams identifier).isSome then (s, some Err.StreamAlreadyAnchored)
        else
          match (match schema with
                 | some sc => env.schemaStatus sc controller
                 | none => Except.ok ()) with
          | Except.error e => (s, some e)
          | Except.ok _ =>
            match link with
            | some l =>
              match s.streams l with
              | none => (s, some Err.StreamLinkNotFound)
              | some ld =>
                if ld.revoked then (s, some Err.StreamLinkRevoked)
                else
                  createWrites env
                    (link_tx s l { identifier := identifier, controller := controller })
                    identifier hash cid schema link controller
            | none => createWrites env s identifier hash cid schema link controller

/-- The tail of `update` after the cid block (lib.rs lines 209-240): ensure not
revoked, ensure ownership, append the `Update` commit, index the hash, replace
the record with `parent_cid = tx_prev.cid`, `controller = updater`,
`..tx_prev` keeping `schema`, `link`, `revoked`. -/
def updateRest (env : Env) (s : State) (identifier hash : Nat) (cid : Option Nat)
    (updater : Nat) (tx_prev : StreamDetails) : State × Option Err :=
  if tx_prev.revoked then (s, some Err.StreamRevoked)
  else if tx_prev.controller ≠ updater then (s, some Err.UnauthorizedOperation)
  else
    let s1 := store_tx s identifier
      { hash := hash, cid := cid, block := env.blockNumber, commit := StreamCommitOf.Update }
    let s2 := insertHash s1 hash identifier
    let s3 := insertStream s2 identifier
      { tx_prev with hash := hash, cid := cid, parent_cid := tx_prev.cid
                     controller := updater, block := env.blockNumber }
    (s3, none)

/-- Embeds `Pallet::update` (lib.rs lines 194-241). Checks in source order:
origin, `hash != identifier`, record exists, cid block (in which
`cid != tx_prev.cid.as_ref().unwrap()` panics when `tx_prev.cid` is `None` —
modelled by the `none` result), revoked, ownership, then the writes. -/
def update (env : Env) (s : State) (origin identifier hash : Nat)
    (cid : Option Nat) : Option (State × Option Err) :=
  match env.ensureOrigin origin with
  | Except.error e => some (s, some e)
  | Except.ok updater =>
    if hash = identifier then some (s, some Err.SameIdentifierAndHash)
    else
      match s.streams identifier with
      | none => some (s, some Err.StreamNotFound)
      | some tx_prev =>
        match cid with
        | some c =>
          match tx_prev.cid with
          | none => none
          | some p =>
            if c = p then some (s, some Err.CidAlreadyAnchored)
            else
              match env.cidIsValid c with
              | Except.error e => some (s, some e)
              | Except.ok _ => some (updateRest env s identifier hash cid updater tx_prev)
        | none => some (updateRest env s identifier hash cid updater tx_prev)

/-- Embeds `Pallet::set_status` (lib.rs lines 248-279). Checks in source order:
origin, record exists, status actually changes, ownership; then append the
`StatusChange` commit (reusing the record's hash and cid) and flip `revoked`.
The Hash Index is not touched. -/
def set_status (env : Env) (s : State) (origin identifier : Nat) (status : Bool) :
    State × Option Err :=
  match env.ensureOrigin origin with
  | Except.error e => (s, some e)
  | Except.ok updater =>
    match s.streams identifier with
    | none => (s, some Err.StreamNotFound)
    | some tx_status =>
      if tx_status.revoked = status then (s, some Err.StatusChangeNotRequired)
      else if tx_status.controller ≠ updater then (s, some Err.UnauthorizedOperation)
      else
        let s1 := store_tx s identifier
          { hash := tx_status.hash, cid := tx_status.cid
            block := env.blockNumber, commit := StreamCommitOf.StatusChange }
        let s2 := insertStream s1 identifier
          { tx_status with block := env.blockNumber, revoked := status }
        (s2, none)

/-- One transition of the registry state machine: any dispatchable, under any
collaborator behaviour and any arguments, that terminates (the `update` panic
produces no successor state). Error results are included: they keep the state
unchanged, which is itself proved below, not assumed. -/
inductive Step : State → State → Prop
  | create (env : Env) (s : State) (origin identifier hash : Nat)
      (cid schema link : Option Nat) (s' : State) (r : Option Err)
      (h : create env s origin identifier hash cid schema link = (s', r)) : Step s s'
  | update (env : Env) (s : State) (origin identifier hash : Nat)
      (cid : Option Nat) (s' : State) (r : Option Err)
      (h : update env s origin identifier hash cid = some (s', r)) : Step s s'
  | set_status (env : Env) (s : State) (origin identifier : Nat) (status : Bool)
      (s' : State) (r : Option Err)
      (h : set_status env s origin identifier status = (s', r)) : Step s s'

/-- States reachable from the genesis state by dispatchable calls. -/
inductive Reachable : State → Prop
  | init : Reachable State.initial
  | step (s s' : State) (hr : Reachable s) (hs : Step s s') : Reachable s'

/-- The registry invariant: commit histories start at `Genesis`, absent records
have empty histories, and no link entry has its own target as source. -/
def GoodState (s : State) : Prop :=
  (∀ k, s.streams k = none → s.commits k = []) ∧
  (∀ k d, s.streams k = some d →
    ∃ e t, s.commits k = e :: t ∧ e.commit = StreamCommitOf.Genesis) ∧
  (∀ t e, e ∈ s.links t → e.identifier ≠ t)

/-! ### Concrete material for witnesses and counterexamples. -/

/-- Collaborator behaviour for concrete runs: the origin resolves to itself,
every cid and schema is accepted, current block number 7. -/
def env0 : Env :=
  { ensureOrigin := fun o => Except.ok o
    cidIsValid := fun _ => Except.ok ()
    schemaStatus := fun _ _ => Except.ok ()
    blockNumber := 7 }

/-- A live record without a locator, controlled by 10. -/
def recA : StreamDetails :=
  { hash := 2, cid := none, parent_cid := none, schema := none, link := none
    controller := 10, block := 0, revoked := false }

/-- A state holding `recA` under identifier 1. -/
def sA : State :=
  { State.initial with streams := fun k => if k = 1 then some recA else none }

/-- A live record with locator 3, controlled by 10. -/
def recB : StreamDetails :=
  { hash := 2, cid := some 3, parent_cid := none, schema := none, link := none
    controller := 10, block := 0, revoked := false }

/-- A state holding `recB` under identifier 1. -/
def sB : State :=
  { State.initial with streams := fun k => if k = 1 then some recB else none }

/-- A revoked record, controlled by 10. -/
def recRev : StreamDetails := { recB with revoked := true }

/-- A state holding the revoked `recRev` under identifier 2. -/
def sRev : State :=
  { State.initial with streams := fun k => if k = 2 then some recRev else none }

/-- The state after creating record 2 from the genesis state. -/
def sLinkBase : State := (create env0 State.initial 10 2 5 none none none).1

/-- The state after additionally creating record 1 linked to record 2. -/
def sLinked : State := (create env0 sLinkBase 10 1 6 none none (some 2)).1

/-! ### Error-path frame lemmas: every error exit happens before any write. -/

theorem create_error_frame (env : Env) (s : State) (origin identifier hash : Nat)
    (cid schema link : Option Nat) (s' : State) (e : Err)
    (hc : create env s origin identifier hash cid schema link = (s', some e)) : s' = s := by
  unfold create createWrites at hc
  repeat' split at hc
  all_goals simp_all

theorem update_error_frame (env : Env) (s : State) (origin identifier hash : Nat)
    (cid : Option Nat) (s' : State) (e : Err)
    (hu : update env s origin identifier hash cid = some (s', some e)) : s' = s := by
  unfold update updateRest at hu
  repeat' split at hu
  all_goals simp_all

theorem set_status_error_frame (env : Env) (s : State) (origin identifier : Nat)
    (status : Bool) (s' : State) (e : Err)
    (hs : set_status env s origin identifier status = (s', some e)) : s' = s := by
  unfold set_status at hs
  repeat' split at hs
  all_goals simp_all

/-! ### Store accessor lemmas. -/

@[simp] theorem insertStream_streams (s : State) (identifier : Nat) (d : StreamDetails)
    (k : Nat) :
    (insertStream s identifier d).streams k = if k = identifier then some d else s.streams k :=
  rfl

@[simp] theorem insertStream_commits (s : State) (identifier : Nat) (d : StreamDetails) :
    (insertStream s identifier d).commits = s.commits := rfl

@[simp] theorem insertStream_links (s : State) (identifier : Nat) (d : StreamDetails) :
    (insertStream s identifier d).links = s.links := rfl

@[simp] theorem insertStream_hashes (s : State) (identifier : Nat) (d : StreamDetails) :
    (insertStream s identifier d).hashes = s.hashes := rfl

@[simp] theorem insertHash_hashes (s : State) (hash identifier : Nat) (k : Nat) :
    (insertHash s hash identifier).hashes k =
      if k = hash then some identifier else s.hashes k := rfl

@[simp] theorem insertHash_streams (s : State) (hash identifier : Nat) :
    (insertHash s hash identifier).streams = s.streams := rfl

@[simp] theorem insertHash_commits (s : State) (hash identifier : Nat) :
    (insertHash s hash identifier).commits = s.commits := rfl

@[simp] theorem insertHash_links (s : State) (hash identifier : Nat) :
    (insertHash s hash identifier).links = s.links := rfl

@[simp] theorem store_tx_commits (s : State) (identifier : Nat) (entry : StreamCommit)
    (k : Nat) :
    (store_tx s identifier entry).commits k =
      if k = identifier then s.commits k ++ [entry] else s.commits k := rfl

@[simp] theorem store_tx_streams (s : State) (identifier : Nat) (entry : StreamCommit) :
    (store_tx s identifier entry).streams = s.streams := rfl

@[simp] theorem store_tx_links (s : State) (identifier : Nat) (entry : StreamCommit) :
    (store_tx s identifier entry).links = s.links := rfl

@[simp] theorem store_tx_hashes (s : State) (identifier : Nat) (entry : StreamCommit) :
    (store_tx s identifier entry).hashes = s.hashes := rfl

@[simp] theorem link_tx_links (s : State) (target : Nat) (entry : StreamLink) (k : Nat) :
    (link_tx s target entry).links k =
      if k = target then s.links k ++ [entry] else s.links k := rfl

@[simp] theorem link_tx_streams (s : State) (target : Nat) (entry : StreamLink) :
    (link_tx s target entry).streams = s.streams := rfl

@[simp] theorem link_tx_commits (s : State) (target : Nat) (entry : StreamLink) :
    (link_tx s target entry).commits = s.commits := rfl

@[simp] theorem link_tx_hashes (s : State) (target : Nat) (entry : StreamLink) :
    (link_tx s target entry).hashes = s.hashes := rfl

/-! ### Success-path inversion lemmas. -/

theorem createWrites_eq (env : Env) (s : State) (identifier hash : Nat)
    (cid schema link : Option Nat) (controller : Nat) :
    createWrites env s identifier hash cid schema link controller =
      (insertStream
        (insertHash (store_tx s identifier
          { hash := hash, cid := cid, block := env.blockNumber
            commit := StreamCommitOf.Genesis })
          hash identifier) identifier
        { hash := hash, cid := cid, parent_cid := none, schema := schema, link := link
          controller := controller, block := env.blockNumber, revoked := false }, none) := rfl

theorem create_ok_inv (env : Env) (s : State) (origin identifier hash : Nat)
    (cid schema link : Option Nat) (s' : State)
    (hc : create env s origin identifier hash cid schema link = (s', none)) :
    ∃ controller, env.ensureOrigin origin = Except.ok controller ∧
      hash ≠ identifier ∧ s.streams identifier = none ∧
      ((link = none ∧
          createWrites env s identifier hash cid schema link controller = (s', none)) ∨
       (∃ l ld, link = some l ∧ s.streams l = some ld ∧ ld.revoked = false ∧
          createWrites env
            (link_tx s l { identifier := identifier, controller := controller })
            identifier hash cid schema link controller = (s', none))) := by
  unfold create at hc
  split at hc
  · simp at hc
  next controller ho =>
  split at hc
  · simp at hc
  next hh =>
  split at hc
  · simp at hc
  next _ =>
  split at hc
  · next hanch => simp at hc
  next hanch =>
  split at hc
  · simp at hc
  next _ =>
  have hnone : s.streams identifier = none := by
    rcases hx : s.streams identifier with _ | d
    · rfl
    · exfalso
      simp [hx] at hanch
  split at hc
  · next l =>
    split at hc
    · simp at hc
    · next ld hld =>
      split at hc
      · simp at hc
      · next hrev =>
        exact ⟨controller, ho, hh, hnone,
          Or.inr ⟨l, ld, rfl, hld, by simpa using hrev, hc⟩⟩
  · exact ⟨controller, ho, hh, hnone, Or.inl ⟨rfl, hc⟩⟩

theorem updateRest_ok (env : Env) (s : State) (identifier hash : Nat) (cid : Option Nat)
    (updater : Nat) (tx_prev : StreamDetails) (s' : State)
    (hr : updateRest env s identifier hash cid updater tx_prev = (s', none)) :
    tx_prev.revoked = false ∧ tx_prev.controller = updater ∧
      s' = insertStream
        (insertHash (store_tx s identifier
          { hash := hash, cid := cid, block := env.blockNumber
            commit := StreamCommitOf.Update })
          hash identifier) identifier
        { tx_prev with hash := hash, cid := cid, parent_cid := tx_prev.cid
                       controller := updater, block := env.blockNumber } := by
  unfold updateRest at hr
  split at hr
  · simp at hr
  next hrev =>
  split at hr
  · simp at hr
  next hctl =>
  refine ⟨by simpa using hrev, not_not.mp hctl, ?_⟩
  simp only [Prod.mk.injEq] at hr
  exact hr.1.symm

theorem update_ok_inv (env : Env) (s : State) (origin identifier hash : Nat)
    (cid : Option Nat) (s' : State)
    (hu : update env s origin identifier hash cid = some (s', none)) :
    ∃ updater tx_prev, env.ensureOrigin origin = Except.ok updater ∧
      hash ≠ identifier ∧ s.streams identifier = some tx_prev ∧
      updateRest env s identifier hash cid updater tx_prev = (s', none) := by
  unfold update at hu
  split at hu
  · simp at hu
  next updater ho =>
  split at hu
  · simp at hu
  next hh =>
  split at hu
  · simp at hu
  next tx_prev hst =>
  split at hu
  · split at hu
    · exact absurd hu (by simp)
    next p hpc =>
    split at hu
    · simp at hu
    next hcp =>
    split at hu
    · simp at hu
    next _ =>
    exact ⟨updater, tx_prev, ho, hh, hst, Option.some.inj hu⟩
  · exact ⟨updater, tx_prev, ho, hh, hst, Option.some.inj hu⟩

theorem set_status_ok_inv (env : Env) (s : State) (origin identifier : Nat) (status : Bool)
    (s' : State) (hs : set_status env s origin identifier status = (s', none)) :
    ∃ tx_status, env.ensureOrigin origin = Except.ok tx_status.controller ∧
      s.streams identifier = some tx_status ∧ tx_status.revoked ≠ status ∧
      s' = insertStream
        (store_tx s identifier
          { hash := tx_status.hash, cid := tx_status.cid, block := env.blockNumber
            commit := StreamCommitOf.StatusChange }) identifier
        { tx_status with block := env.blockNumber, revoked := status } := by
  unfold set_status at hs
  split at hs
  · simp at hs
  next updater ho =>
  split at hs
  · simp at hs
  next tx_status hst =>
  split at hs
  · simp at hs
  next hne =>
  split at hs
  · simp at hs
  next hctl =>
  have hctl' : tx_status.controller = updater := not_not.mp hctl
  simp only [Prod.mk.injEq] at hs
  exact ⟨tx_status, hctl' ▸ ho, hst, hne, hs.1.symm⟩

theorem createWrites_inv (env : Env) (s0 : State) (identifier hash : Nat)
    (cid schema link : Option Nat) (controller : Nat) (s' : State)
    (hw : createWrites env s0 identifier hash cid schema link controller = (s', none)) :
    s' = insertStream
      (insertHash (store_tx s0 identifier
        { hash := hash, cid := cid, block := env.blockNumber
          commit := StreamCommitOf.Genesis })
        hash identifier) identifier
      { hash := hash, cid := cid, parent_cid := none, schema := schema, link := link
        controller := controller, block := env.blockNumber, revoked := false } := by
  rw [createWrites_eq] at hw
  exact (Prod.ext_iff.mp hw).1.symm

/-- A successful `create` resolves the controller, requires the identifier to be
fresh, and produces exactly the write phase applied to an intermediate state
`s0` that differs from `s` at most by one appended link entry (present exactly
when a link target was given, found, and not revoked). -/
theorem create_ok_state (env : Env) (s : State) (origin identifier hash : Nat)
    (cid schema link : Option Nat) (s' : State)
    (hc : create env s origin identifier hash cid schema link = (s', none)) :
    ∃ controller s0, env.ensureOrigin origin = Except.ok controller ∧
      hash ≠ identifier ∧ s.streams identifier = none ∧
      s0.streams = s.streams ∧ s0.commits = s.commits ∧ s0.hashes = s.hashes ∧
      (∀ t e, e ∈ s0.links t → e ∈ s.links t ∨
        (e = { identifier := identifier, controller := controller } ∧
         ∃ ld, s.streams t = some ld ∧ ld.revoked = false)) ∧
      s' = insertStream
        (insertHash (store_tx s0 identifier
          { hash := hash, cid := cid, block := env.blockNumber
            commit := StreamCommitOf.Genesis })
          hash identifier) identifier
        { hash := hash, cid := cid, parent_cid := none, schema := schema, link := link
          controller := controller, block := env.blockNumber, revoked := false } := by
  obtain ⟨controller, ho, hh, hfresh, hcase⟩ :=
    create_ok_inv env s origin identifier hash cid schema link s' hc
  rcases hcase with ⟨-, hw⟩ | ⟨l, ld, -, hld, hrev, hw⟩
  · exact ⟨controller, s, ho, hh, hfresh, rfl, rfl, rfl,
      fun t e he => Or.inl he, createWrites_inv _ _ _ _ _ _ _ _ _ hw⟩
  · refine ⟨controller, link_tx s l { identifier := identifier, controller := controller },
      ho, hh, hfresh, rfl, rfl, rfl, ?_, createWrites_inv _ _ _ _ _ _ _ _ _ hw⟩
    intro t e he
    simp only [link_tx_links] at he
    by_cases ht : t = l
    · rw [if_pos ht] at he
      rcases List.mem_append.mp he with h1 | h2
      · exact Or.inl h1
      · exact Or.inr ⟨List.mem_singleton.mp h2, ld, ht ▸ hld, hrev⟩
    · rw [if_neg ht] at he
      exact Or.inl he

/-- A successful `update` resolves the updater to the stored controller,
requires the record to exist and not be revoked, and produces exactly the
write phase: `Update` commit appended, hash indexed, record replaced with
`parent_cid` set to the previous `cid` and `schema`, `link`, `revoked` kept. -/
theorem update_ok_state (env : Env) (s : State) (origin identifier hash : Nat)
    (cid : Option Nat) (s' : State)
    (hu : update env s origin identifier hash cid = some (s', none)) :
    ∃ tx_prev, env.ensureOrigin origin = Except.ok tx_prev.controller ∧
      hash ≠ identifier ∧ s.streams identifier = some tx_prev ∧ tx_prev.revoked = false ∧
      s' = insertStream
        (insertHash (store_tx s identifier
          { hash := hash, cid := cid, block := env.blockNumber
            commit := StreamCommitOf.Update })
          hash identifier) identifier
        { tx_prev with hash := hash, cid := cid, parent_cid := tx_prev.cid
                       controller := tx_prev.controller, block := env.blockNumber } := by
  obtain ⟨updater, tx_prev, ho, hh, hst, hr⟩ :=
    update_ok_inv env s origin identifier hash cid s' hu
  obtain ⟨hrev, hctl, hs'⟩ := updateRest_ok env s identifier hash cid updater tx_prev s' hr
  subst hctl
  exact ⟨tx_prev, ho, hh, hst, hrev, hs'⟩

/-! ### Reachability invariants. -/

theorem good_initial : GoodState State.initial := by
  refine ⟨fun k _ => rfl, fun k d hk => ?_, fun t e he => ?_⟩
  · exact absurd hk (by simp [State.initial])
  · exact absurd he (by simp [State.initial])

theorem step_good (s s' : State) (hg : GoodState s) (hs : Step s s') : GoodState s' := by
  obtain ⟨hg1, hg2, hg3⟩ := hg
  cases hs with
  | create env _ origin identifier hash cid schema link _ r hc =>
    rcases r with _ | e
    · obtain ⟨ctrl, s0, ho, hh, hfresh, hstr, hcom, hhash, hlinks, hs'⟩ :=
        create_ok_state env s origin identifier hash cid schema link s' hc
      subst hs'
      refine ⟨?_, ?_, ?_⟩
      · intro k hk
        by_cases hki : k = identifier
        · subst hki; simp at hk
        · simp only [insertStream_streams, insertHash_streams, store_tx_streams, hstr,
            if_neg hki] at hk
          simp only [insertStream_commits, insertHash_commits, store_tx_commits, hcom,
            if_neg hki]
          exact hg1 k hk
      · intro k d hk
        by_cases hki : k = identifier
        · subst hki
          refine ⟨{ hash := hash, cid := cid, block := env.blockNumber
                    commit := StreamCommitOf.Genesis }, [], ?_, rfl⟩
          simp [hcom, hg1 _ hfresh]
        · simp only [insertStream_streams, insertHash_streams, store_tx_streams, hstr,
            if_neg hki] at hk
          simp only [insertStream_commits, insertHash_commits, store_tx_commits, hcom,
            if_neg hki]
          exact hg2 k d hk
      · intro t e he
        simp only [insertStream_links, insertHash_links, store_tx_links] at he
        rcases hlinks t e he with h1 | ⟨rfl, ld, hld, -⟩
        · exact hg3 t e h1
        · intro hid
          simp only at hid
          rw [← hid] at hld
          rw [hfresh] at hld
          cases hld
    · have := create_error_frame env s origin identifier hash cid schema link s' e hc
      subst this
      exact ⟨hg1, hg2, hg3⟩
  | update env _ origin identifier hash cid _ r hc =>
    rcases r with _ | e
    · obtain ⟨tx_prev, ho, hh, hst, hrev, hs'⟩ :=
        update_ok_state env s origin identifier hash cid s' hc
      subst hs'
      refine ⟨?_, ?_, ?_⟩
      · intro k hk
        by_cases hki : k = identifier
        · subst hki; simp at hk
        · simp only [insertStream_streams, insertHash_streams, store_tx_streams,
            if_neg hki] at hk
          simp only [insertStream_commits, insertHash_commits, store_tx_commits, if_neg hki]
          exact hg1 k hk
      · intro k d hk
        by_cases hki : k = identifier
        · subst hki
          obtain ⟨e0, t0, hct, hgen⟩ := hg2 _ tx_prev hst
          refine ⟨e0, t0 ++ [{ hash := hash, cid := cid, block := env.blockNumber
                               commit := StreamCommitOf.Update }], ?_, hgen⟩
          simp [hct]
        · simp only [insertStream_streams, insertHash_streams, store_tx_streams,
            if_neg hki] at hk
          simp only [insertStream_commits, insertHash_commits, store_tx_commits, if_neg hki]
          exact hg2 k d hk
      · intro t e he
        simp only [insertStream_links, insertHash_links, store_tx_links] at he
        exact hg3 t e he
    · have := update_error_frame env s origin identifier hash cid s' e hc
      subst this
      exact ⟨hg1, hg2, hg3⟩
  | set_status env _ origin identifier status _ r hc =>
    rcases r with _ | e
    · obtain ⟨tx_status, ho, hst, hne, hs'⟩ :=
        set_status_ok_inv env s origin identifier status s' hc
      subst hs'
      refine ⟨?_, ?_, ?_⟩
      · intro k hk
        by_cases hki : k = identifier
        · subst hki; simp at hk
        · simp only [insertStream_streams, store_tx_streams, if_neg hki] at hk
          simp only [insertStream_commits, store_tx_commits, if_neg hki]
          exact hg1 k hk
      · intro k d hk
        by_cases hki : k = identifier
        · subst hki
          obtain ⟨e0, t0, hct, hgen⟩ := hg2 _ tx_status hst
          refine ⟨e0, t0 ++ [{ hash := tx_status.hash, cid := tx_status.cid
                               block := env.blockNumber
                               commit := StreamCommitOf.StatusChange }], ?_, hgen⟩
          simp [hct]
        · simp only [insertStream_streams, store_tx_streams, if_neg hki] at hk
          simp only [insertStream_commits, store_tx_commits, if_neg hki]
          exact hg2 k d hk
      · intro t e he
        simp only [insertStream_links, store_tx_links] at he
        exact hg3 t e he
    · have := set_status_error_frame env s origin identifier status s' e hc
      subst this
      exact ⟨hg1, hg2, hg3⟩

theorem reachable_good (s : State) (hr : Reachable s) : GoodState s := by
  induction hr with
  | init => exact good_initial
  | step s s' hr hs ih => exact step_good s s' ih hs

/-- One transition only appends to commit histories. -/
theorem step_commits_append (s s' : State) (hs : Step s s') (k : Nat) :
    ∃ t, s'.commits k = s.commits k ++ t := by
  cases hs with
  | create env _ origin identifier hash cid schema link _ r hc =>
    rcases r with _ | e
    · obtain ⟨ctrl, s0, -, -, -, -, hcom, -, -, hs'⟩ :=
        create_ok_state env s origin identifier hash cid schema link s' hc
      subst hs'
      by_cases hki : k = identifier
      · exact ⟨[{ hash := hash, cid := cid, block := env.blockNumber
                  commit := StreamCommitOf.Genesis }], by simp [hki, hcom]⟩
      · exact ⟨[], by simp [hki, hcom]⟩
    · have := create_error_frame env s origin identifier hash cid schema link s' e hc
      subst this
      exact ⟨[], by simp⟩
  | update env _ origin identifier hash cid _ r hc =>
    rcases r with _ | e
    · obtain ⟨tx_prev, -, -, -, -, hs'⟩ :=
        update_ok_state env s origin identifier hash cid s' hc
      subst hs'
      by_cases hki : k = identifier
      · exact ⟨[{ hash := hash, cid := cid, block := env.blockNumber
                  commit := StreamCommitOf.Update }], by simp [hki]⟩
      · exact ⟨[], by simp [hki]⟩
    · have := update_error_frame env s origin identifier hash cid s' e hc
      subst this
      exact ⟨[], by simp⟩
  | set_status env _ origin identifier status _ r hc =>
    rcases r with _ | e
    · obtain ⟨tx_status, -, -, -, hs'⟩ :=
        set_status_ok_inv env s origin identifier status s' hc
      subst hs'
      by_cases hki : k = identifier
      · exact ⟨[{ hash := tx_status.hash, cid := tx_status.cid, block := env.blockNumber
                  commit := StreamCommitOf.StatusChange }], by simp [hki]⟩
      · exact ⟨[], by simp [hki]⟩
    · have := set_status_error_frame env s origin identifier status s' e hc
      subst this
      exact ⟨[], by simp⟩

/-- One transition never deletes a record and never changes its controller. -/
theorem step_controller_mono (s s' : State) (hs : Step s s') (k : Nat) (d : StreamDetails)
    (hk : s.streams k = some d) :
    ∃ d', s'.streams k = some d' ∧ d'.controller = d.controller := by
  cases hs with
  | create env _ origin identifier hash cid schema link _ r hc =>
    rcases r with _ | e
    · obtain ⟨ctrl, s0, -, -, hfresh, hstr, -, -, -, hs'⟩ :=
        create_ok_state env s origin identifier hash cid schema link s' hc
      subst hs'
      by_cases hki : k = identifier
      · rw [hki, hfresh] at hk; cases hk
      · exact ⟨d, by simp [hstr, hki, hk], rfl⟩
    · have := create_error_frame env s origin identifier hash cid schema link s' e hc
      subst this
      exact ⟨d, hk, rfl⟩
  | update env _ origin identifier hash cid _ r hc =>
    rcases r with _ | e
    · obtain ⟨tx_prev, -, -, hst, -, hs'⟩ :=
        update_ok_state env s origin identifier hash cid s' hc
      subst hs'
      by_cases hki : k = identifier
      · subst hki
        rw [hst] at hk
        cases hk
        exact ⟨{ d with hash := hash, cid := cid, parent_cid := d.cid, block := env.blockNumber }, by simp, rfl⟩
      · exact ⟨d, by simp [hki, hk], rfl⟩
    · have := update_error_frame env s origin identifier hash cid s' e hc
      subst this
      exact ⟨d, hk, rfl⟩
  | set_status env _ origin identifier status _ r hc =>
    rcases r with _ | e
    · obtain ⟨tx_status, -, hst, -, hs'⟩ :=
        set_status_ok_inv env s origin identifier status s' hc
      subst hs'
      by_cases hki : k = identifier
      · subst hki
        rw [hst] at hk
        cases hk
        exact ⟨{ d with block := env.blockNumber, revoked := status }, by simp, rfl⟩
      · exact ⟨d, by simp [hki, hk], rfl⟩
    · have := set_status_error_frame env s origin identifier status s' e hc
      subst this
      exact ⟨d, hk, rfl⟩

/-! ### Claim theorems. -/

/-- C1: the claim asserts that `update` on an existing, non-revoked record
owned by the caller always returns `Ok` or a specified error, in particular
that the locator-difference check is defined when the current locator is
absent. The code instead evaluates `tx_prev.cid.as_ref().unwrap()` on a
`None` current cid, a panic: at the concrete input below — record present,
not revoked, caller is the controller, fresh valid locator supplied — the
embedded `update` yields no result at all (`none` models the Rust panic). -/
theorem C1_update_panics_on_absent_locator :
    sA.streams 1 = some recA ∧ recA.revoked = false ∧
      env0.ensureOrigin 10 = Except.ok recA.controller ∧
      update env0 sA 10 1 5 (some 7) = none :=
  ⟨rfl, rfl, rfl, rfl⟩

/-- C2 counterexample: a caller resolving to controller 20 calls `update` on a
record controlled by 10, with `hash = identifier`. The claim demands
`UnauthorizedOperation` regardless of such input properties, but the code
checks `hash != identifier` first and returns `SameIdentifierAndHash`. -/
theorem C2_counterexample :
    env0.ensureOrigin 20 = Except.ok 20 ∧ sA.streams 1 = some recA ∧
      recA.controller ≠ 20 ∧
      update env0 sA 20 1 1 none = some (sA, some Err.SameIdentifierAndHash) ∧
      Err.SameIdentifierAndHash ≠ Err.UnauthorizedOperation :=
  ⟨rfl, rfl, by decide, rfl, by decide⟩

/-- C2 (amended): a caller whose resolved controller differs from the stored
controller can never successfully `update` or `set_status` an existing
record, and the complete outcome under that mismatch is characterised: for
`set_status` the result is `StatusChangeNotRequired` when the new status
equals the current one and `UnauthorizedOperation` otherwise; for `update`
the result is `SameIdentifierAndHash` when `hash = identifier`, otherwise —
when a locator is supplied — a panic (no result at all) when the record's
current locator is absent, `CidAlreadyAnchored` when the supplied locator
equals the current one, the validator's own error when validation fails, and
otherwise `StreamRevoked` when the record is revoked, with
`UnauthorizedOperation` arising exactly in the remaining case, i.e. exactly
when every check sequenced before the ownership check completes and passes. -/
theorem C2_unauthorized_needs_earlier_checks (env : Env) (s : State)
    (origin identifier hash : Nat) (cid : Option Nat) (status : Bool)
    (updater : Nat) (d : StreamDetails)
    (ho : env.ensureOrigin origin = Except.ok updater)
    (hd : s.streams identifier = some d)
    (hmis : d.controller ≠ updater) :
    (∀ s', update env s origin identifier hash cid ≠ some (s', none)) ∧
    (∀ s', set_status env s origin identifier status ≠ (s', none)) ∧
    update env s origin identifier hash cid =
      (if hash = identifier then some (s, some Err.SameIdentifierAndHash)
       else
         match cid with
         | none =>
           if d.revoked then some (s, some Err.StreamRevoked)
           else some (s, some Err.UnauthorizedOperation)
         | some c =>
           match d.cid with
           | none => none
           | some p =>
             if c = p then some (s, some Err.CidAlreadyAnchored)
             else
               match env.cidIsValid c with
               | Except.error e => some (s, some e)
               | Except.ok _ =>
                 if d.revoked then some (s, some Err.StreamRevoked)
                 else some (s, some Err.UnauthorizedOperation)) ∧
    set_status env s origin identifier status =
      (if d.revoked = status then (s, some Err.StatusChangeNotRequired)
       else (s, some Err.UnauthorizedOperation)) := by
  refine ⟨?_, ?_, ?_, ?_⟩
  · intro s' hu
    obtain ⟨tx_prev, ho', -, hst, -, -⟩ := update_ok_state env s origin identifier hash cid s' hu
    rw [hd] at hst
    cases hst
    rw [ho] at ho'
    exact hmis (Except.ok.inj ho').symm
  · intro s' hs'
    obtain ⟨tx_status, ho', hst, -, -⟩ := set_status_ok_inv env s origin identifier status s' hs'
    rw [hd] at hst
    cases hst
    rw [ho] at ho'
    exact hmis (Except.ok.inj ho').symm
  · by_cases hh : hash = identifier
    · simp [update, ho, hh]
    · rcases cid with _ | c
      · cases hrev : d.revoked
        · simp [update, updateRest, ho, hd, if_neg hh, hrev, hmis]
        · simp [update, updateRest, ho, hd, if_neg hh, hrev]
      · rcases hp : d.cid with _ | p
        · simp [update, ho, hd, if_neg hh, hp]
        · by_cases hcp : c = p
          · simp [update, ho, hd, if_neg hh, hp, hcp]
          · rcases hv : env.cidIsValid c with e | u
            · simp [update, ho, hd, if_neg hh, hp, hcp, hv]
            · cases hrev : d.revoked
              · simp [update, updateRest, ho, hd, if_neg hh, hp, hcp, hv, hrev, hmis]
              · simp [update, updateRest, ho, hd, if_neg hh, hp, hcp, hv, hrev]
  · by_cases hrs : d.revoked = status
    · simp [set_status, ho, hd, hrs]
    · simp [set_status, ho, hd, hrs, hmis]

theorem C2_unauthorized_needs_earlier_checks_witness :
    env0.ensureOrigin 20 = Except.ok 20 ∧ sA.streams 1 = some recA ∧
      recA.controller ≠ 20 ∧ recA.revoked = false ∧ recA.cid = none ∧
      (∀ s', update env0 sA 20 1 5 none ≠ some (s', none)) ∧
      (∀ s', set_status env0 sA 20 1 true ≠ (s', none)) ∧
      update env0 sA 20 1 5 none = some (sA, some Err.UnauthorizedOperation) ∧
      set_status env0 sA 20 1 true = (sA, some Err.UnauthorizedOperation) ∧
      set_status env0 sA 20 1 false = (sA, some Err.StatusChangeNotRequired) ∧
      update env0 sA 20 1 1 none = some (sA, some Err.SameIdentifierAndHash) ∧
      update env0 sA 20 1 5 (some 7) = none := by
  have h5 := C2_unauthorized_needs_earlier_checks env0 sA 20 1 5 none true 20 recA rfl rfl
    (by decide)
  have hf := C2_unauthorized_needs_earlier_checks env0 sA 20 1 5 none false 20 recA rfl rfl
    (by decide)
  have h1 := C2_unauthorized_needs_earlier_checks env0 sA 20 1 1 none true 20 recA rfl rfl
    (by decide)
  have hp := C2_unauthorized_needs_earlier_checks env0 sA 20 1 5 (some 7) true 20 recA rfl rfl
    (by decide)
  exact ⟨rfl, rfl, by decide, rfl, rfl, h5.1, h5.2.1,
    h5.2.2.1.trans rfl, h5.2.2.2.trans rfl, hf.2.2.2.trans rfl,
    h1.2.2.1.trans rfl, hp.2.2.1.trans rfl⟩

/-- C3: whenever `create`, `update`, or `set_status` returns an error, the
returned state equals the input state — none of the four stores changes; in
particular `create` with a link target that is revoked never succeeds and
leaves every store as it was, the error being `StreamLinkRevoked` whenever the
checks sequenced before the link check (origin, hash, cid, uniqueness, schema)
pass. -/
theorem C3_errors_leave_state_unchanged :
    (∀ env s origin identifier hash cid schema link s' e,
      create env s origin identifier hash cid schema link = (s', some e) → s' = s) ∧
    (∀ env s origin identifier hash cid s' e,
      update env s origin identifier hash cid = some (s', some e) → s' = s) ∧
    (∀ env s origin identifier status s' e,
      set_status env s origin identifier status = (s', some e) → s' = s) ∧
    (∀ env s origin identifier hash cid schema l ld,
      s.streams l = some ld → ld.revoked = true →
      ∀ s' r, create env s origin identifier hash cid schema (some l) = (s', r) →
        s' = s ∧ ∃ e, r = some e) ∧
    (∀ env s origin identifier hash cid schema l ld controller,
      s.streams l = some ld → ld.revoked = true →
      env.ensureOrigin origin = Except.ok controller → hash ≠ identifier →
      (∀ c, cid = some c → env.cidIsValid c = Except.ok ()) →
      s.streams identifier = none →
      (∀ sc, schema = some sc → env.schemaStatus sc controller = Except.ok ()) →
      create env s origin identifier hash cid schema (some l) =
        (s, some Err.StreamLinkRevoked)) := by
  refine ⟨?_, ?_, ?_, ?_, ?_⟩
  · exact fun env s o i h c sc l s' e hc => create_error_frame env s o i h c sc l s' e hc
  · exact fun env s o i h c s' e hu => update_error_frame env s o i h c s' e hu
  · exact fun env s o i st s' e hs => set_status_error_frame env s o i st s' e hs
  · intro env s origin identifier hash cid schema l ld hld hrev s' r hc
    rcases r with _ | e
    · exfalso
      obtain ⟨controller, -, -, -, hcase⟩ :=
        create_ok_inv env s origin identifier hash cid schema (some l) s' hc
      rcases hcase with ⟨hnone, -⟩ | ⟨l', ld', hl', hld', hrev', -⟩
      · cases hnone
      · cases Option.some.inj hl'
        rw [hld] at hld'
        cases Option.some.inj hld'
        rw [hrev] at hrev'
        cases hrev'
    · exact ⟨create_error_frame env s origin identifier hash cid schema (some l) s' e hc,
        e, rfl⟩
  · intro env s origin identifier hash cid schema l ld controller hld hrev ho hh hcid
      hfresh hsc
    rcases cid with _ | c
    · rcases schema with _ | sc
      · simp [create, ho, if_neg hh, hfresh, hld, hrev]
      · simp [create, ho, if_neg hh, hfresh, hsc sc rfl, hld, hrev]
    · rcases schema with _ | sc
      · simp [create, ho, if_neg hh, hcid c rfl, hfresh, hld, hrev]
      · simp [create, ho, if_neg hh, hcid c rfl, hfresh, hsc sc rfl, hld, hrev]

theorem C3_errors_leave_state_unchanged_witness :
    (create env0 sA 10 1 1 none none none = (sA, some Err.SameIdentifierAndHash) ∧ sA = sA) ∧
    (update env0 sA 10 2 5 none = some (sA, some Err.StreamNotFound) ∧ sA = sA) ∧
    (set_status env0 sA 20 1 true = (sA, some Err.UnauthorizedOperation) ∧ sA = sA) ∧
    (sRev.streams 2 = some recRev ∧ recRev.revoked = true ∧
      create env0 sRev 10 1 5 none none (some 2) = (sRev, some Err.StreamLinkRevoked)) := by
  refine ⟨⟨rfl, ?_⟩, ⟨rfl, ?_⟩, ⟨rfl, ?_⟩, rfl, rfl, ?_⟩
  · exact C3_errors_leave_state_unchanged.1 env0 sA 10 1 1 none none none sA
      Err.SameIdentifierAndHash rfl
  · exact C3_errors_leave_state_unchanged.2.1 env0 sA 10 2 5 none sA Err.StreamNotFound rfl
  · exact C3_errors_leave_state_unchanged.2.2.1 env0 sA 20 1 true sA
      Err.UnauthorizedOperation rfl
  · exact C3_errors_leave_state_unchanged.2.2.2.2 env0 sRev 10 1 5 none none 2 recRev 10
      rfl rfl rfl (by decide) (fun c hc => by cases hc) rfl (fun sc hsc => by cases hsc)

/-- C4: every transition only appends to commit histories; in every reachable
state a record that exists has a history whose first entry is `Genesis`; and a
successful `create` from a reachable state leaves exactly one history entry,
of kind `Genesis`, whose hash is the created record's hash. -/
theorem C4_history_append_only_genesis_first :
    (∀ s s', Step s s' → ∀ k, ∃ t, s'.commits k = s.commits k ++ t) ∧
    (∀ s, Reachable s → ∀ k d, s.streams k = some d →
      ∃ e t, s.commits k = e :: t ∧ e.commit = StreamCommitOf.Genesis) ∧
    (∀ env s origin identifier hash cid schema link s',
      Reachable s → create env s origin identifier hash cid schema link = (s', none) →
      s'.commits identifier =
        [{ hash := hash, cid := cid, block := env.blockNumber
           commit := StreamCommitOf.Genesis }] ∧
      ∃ d, s'.streams identifier = some d ∧ d.hash = hash) := by
  refine ⟨step_commits_append, fun s hr => (reachable_good s hr).2.1, ?_⟩
  intro env s origin identifier hash cid schema link s' hr hc
  obtain ⟨hg1, -, -⟩ := reachable_good s hr
  obtain ⟨ctrl, s0, -, -, hfresh, -, hcom, -, -, hs'⟩ :=
    create_ok_state env s origin identifier hash cid schema link s' hc
  subst hs'
  constructor
  · simp [hcom, hg1 _ hfresh]
  · exact ⟨{ hash := hash, cid := cid, parent_cid := none, schema := schema, link := link
             controller := ctrl, block := env.blockNumber, revoked := false },
      by simp, rfl⟩

theorem C4_history_append_only_genesis_first_witness :
    Reachable State.initial ∧
    create env0 State.initial 10 1 5 none none none =
      ((create env0 State.initial 10 1 5 none none none).1, none) ∧
    Step State.initial (create env0 State.initial 10 1 5 none none none).1 ∧
    (∃ t, (create env0 State.initial 10 1 5 none none none).1.commits 1 =
      State.initial.commits 1 ++ t) ∧
    (create env0 State.initial 10 1 5 none none none).1.commits 1 =
      [{ hash := 5, cid := none, block := 7, commit := StreamCommitOf.Genesis }] ∧
    ∃ d, (create env0 State.initial 10 1 5 none none none).1.streams 1 = some d ∧
      d.hash = 5 := by
  have hstep : Step State.initial (create env0 State.initial 10 1 5 none none none).1 :=
    Step.create env0 State.initial 10 1 5 none none none _ none rfl
  have h3 := C4_history_append_only_genesis_first.2.2 env0 State.initial 10 1 5
    none none none _ Reachable.init rfl
  exact ⟨Reachable.init, rfl, hstep,
    C4_history_append_only_genesis_first.1 State.initial _ hstep 1, h3.1, h3.2⟩

/-- C5: a successful `update` of a record stores `parent_cid` equal to the
`cid` the record held immediately before the call. -/
theorem C5_parent_locator_roundtrip (env : Env) (s : State) (origin identifier hash : Nat)
    (cid : Option Nat) (s' : State) (d : StreamDetails)
    (hd : s.streams identifier = some d)
    (hu : update env s origin identifier hash cid = some (s', none)) :
    ∃ d', s'.streams identifier = some d' ∧ d'.parent_cid = d.cid := by
  obtain ⟨tx_prev, -, -, hst, -, hs'⟩ := update_ok_state env s origin identifier hash cid s' hu
  rw [hd] at hst
  cases hst
  subst hs'
  exact ⟨{ d with hash := hash, cid := cid, parent_cid := d.cid, block := env.blockNumber },
    by simp, rfl⟩

theorem C5_parent_locator_roundtrip_witness :
    sB.streams 1 = some recB ∧
    update env0 sB 10 1 5 (some 4) =
      some ((updateRest env0 sB 1 5 (some 4) 10 recB).1, none) ∧
    ∃ d', (updateRest env0 sB 1 5 (some 4) 10 recB).1.streams 1 = some d' ∧
      d'.parent_cid = recB.cid :=
  ⟨rfl, rfl, C5_parent_locator_roundtrip env0 sB 10 1 5 (some 4) _ recB rfl rfl⟩

/-- C6: after a successful `set_status` to value `v`, a second `set_status`
with the same caller and the same value fails with `StatusChangeNotRequired`
and returns the intermediate state itself: record and commit log unchanged. -/
theorem C6_set_status_idempotent_rejecting (env1 env2 : Env) (s s1 : State)
    (origin identifier : Nat) (v : Bool)
    (h1 : set_status env1 s origin identifier v = (s1, none))
    (ho : env2.ensureOrigin origin = env1.ensureOrigin origin) :
    set_status env2 s1 origin identifier v = (s1, some Err.StatusChangeNotRequired) := by
  obtain ⟨tx_status, ho1, hst, hne, hs1⟩ := set_status_ok_inv env1 s origin identifier v s1 h1
  subst hs1
  simp [set_status, ho, ho1]

theorem C6_set_status_idempotent_rejecting_witness :
    set_status env0 sB 10 1 true = ((set_status env0 sB 10 1 true).1, none) ∧
    set_status env0 (set_status env0 sB 10 1 true).1 10 1 true =
      ((set_status env0 sB 10 1 true).1, some Err.StatusChangeNotRequired) :=
  ⟨rfl, C6_set_status_idempotent_rejecting env0 env0 sB _ 10 1 true rfl rfl⟩

/-- C7: a successful `update` keeps `schema`, `link` and `revoked` unchanged;
a successful `set_status` keeps every field but `revoked` and `block`
(the sequence stamp) unchanged; `create` writes `revoked = false`. Hence the
revoked flag changes only through `set_status`. -/
theorem C7_immutable_fields_frame :
    (∀ env s origin identifier hash cid s' d,
      s.streams identifier = some d →
      update env s origin identifier hash cid = some (s', none) →
      ∃ d', s'.streams identifier = some d' ∧
        d'.schema = d.schema ∧ d'.link = d.link ∧ d'.revoked = d.revoked) ∧
    (∀ env s origin identifier status s' d,
      s.streams identifier = some d →
      set_status env s origin identifier status = (s', none) →
      ∃ d', s'.streams identifier = some d' ∧
        d'.hash = d.hash ∧ d'.cid = d.cid ∧ d'.parent_cid = d.parent_cid ∧
        d'.schema = d.schema ∧ d'.link = d.link ∧ d'.controller = d.controller ∧
        d'.revoked = status) ∧
    (∀ env s origin identifier hash cid schema link s',
      create env s origin identifier hash cid schema link = (s', none) →
      ∃ d', s'.streams identifier = some d' ∧ d'.revoked = false) := by
  refine ⟨?_, ?_, ?_⟩
  · intro env s origin identifier hash cid s' d hd hu
    obtain ⟨tx_prev, -, -, hst, -, hs'⟩ :=
      update_ok_state env s origin identifier hash cid s' hu
    rw [hd] at hst
    cases hst
    subst hs'
    exact ⟨{ d with hash := hash, cid := cid, parent_cid := d.cid, block := env.blockNumber }, by simp, rfl, rfl, rfl⟩
  · intro env s origin identifier status s' d hd hs
    obtain ⟨tx_status, -, hst, -, hs'⟩ :=
      set_status_ok_inv env s origin identifier status s' hs
    rw [hd] at hst
    cases hst
    subst hs'
    exact ⟨{ d with block := env.blockNumber, revoked := status },
      by simp, rfl, rfl, rfl, rfl, rfl, rfl, rfl⟩
  · intro env s origin identifier hash cid schema link s' hc
    obtain ⟨ctrl, s0, -, -, -, -, -, -, -, hs'⟩ :=
      create_ok_state env s origin identifier hash cid schema link s' hc
    subst hs'
    exact ⟨{ hash := hash, cid := cid, parent_cid := none, schema := schema, link := link
             controller := ctrl, block := env.blockNumber, revoked := false },
      by simp, rfl⟩

theorem C7_immutable_fields_frame_witness :
    sB.streams 1 = some recB ∧
    update env0 sB 10 1 5 (some 4) =
      some ((updateRest env0 sB 1 5 (some 4) 10 recB).1, none) ∧
    (∃ d', (updateRest env0 sB 1 5 (some 4) 10 recB).1.streams 1 = some d' ∧
      d'.schema = recB.schema ∧ d'.link = recB.link ∧ d'.revoked = recB.revoked) ∧
    set_status env0 sB 10 1 true = ((set_status env0 sB 10 1 true).1, none) ∧
    (∃ d', (set_status env0 sB 10 1 true).1.streams 1 = some d' ∧
      d'.hash = recB.hash ∧ d'.cid = recB.cid ∧ d'.parent_cid = recB.parent_cid ∧
      d'.schema = recB.schema ∧ d'.link = recB.link ∧ d'.controller = recB.controller ∧
      d'.revoked = true) ∧
    (∃ d', (create env0 State.initial 10 1 5 none none none).1.streams 1 = some d' ∧
      d'.revoked = false) :=
  ⟨rfl, rfl,
   C7_immutable_fields_frame.1 env0 sB 10 1 5 (some 4) _ recB rfl rfl,
   rfl,
   C7_immutable_fields_frame.2.1 env0 sB 10 1 true _ recB rfl rfl,
   C7_immutable_fields_frame.2.2 env0 State.initial 10 1 5 none none none _ rfl⟩

/-- C8: a successful `create` or `update` of `identifier` with hash `h` leaves
`Hashes h = identifier`; `update` leaves every other hash-index entry (in
particular the previously anchored hash's entry) untouched; `set_status`
never modifies the hash index, whether it succeeds or fails. -/
theorem C8_hash_index_monotone :
    (∀ env s origin identifier hash cid schema link s',
      create env s origin identifier hash cid schema link = (s', none) →
      s'.hashes hash = some identifier) ∧
    (∀ env s origin identifier hash cid s',
      update env s origin identifier hash cid = some (s', none) →
      s'.hashes hash = some identifier ∧
      ∀ k, k ≠ hash → s'.hashes k = s.hashes k) ∧
    (∀ env s origin identifier status s' r,
      set_status env s origin identifier status = (s', r) → s'.hashes = s.hashes) := by
  refine ⟨?_, ?_, ?_⟩
  · intro env s origin identifier hash cid schema link s' hc
    obtain ⟨ctrl, s0, -, -, -, -, -, hhash, -, hs'⟩ :=
      create_ok_state env s origin identifier hash cid schema link s' hc
    subst hs'
    simp
  · intro env s origin identifier hash cid s' hu
    obtain ⟨tx_prev, -, -, -, -, hs'⟩ := update_ok_state env s origin identifier hash cid s' hu
    subst hs'
    exact ⟨by simp, fun k hk => by simp [hk]⟩
  · intro env s origin identifier status s' r hsr
    rcases r with _ | e
    · obtain ⟨tx_status, -, -, -, hs'⟩ := set_status_ok_inv env s origin identifier status s' hsr
      subst hs'
      rfl
    · rw [set_status_error_frame env s origin identifier status s' e hsr]

theorem C8_hash_index_monotone_witness :
    create env0 State.initial 10 1 5 none none none =
      ((create env0 State.initial 10 1 5 none none none).1, none) ∧
    (create env0 State.initial 10 1 5 none none none).1.hashes 5 = some 1 ∧
    update env0 sB 10 1 5 (some 4) =
      some ((updateRest env0 sB 1 5 (some 4) 10 recB).1, none) ∧
    ((updateRest env0 sB 1 5 (some 4) 10 recB).1.hashes 5 = some 1 ∧
      ∀ k, k ≠ 5 → (updateRest env0 sB 1 5 (some 4) 10 recB).1.hashes k = sB.hashes k) ∧
    set_status env0 sB 10 1 true = ((set_status env0 sB 10 1 true).1, none) ∧
    (set_status env0 sB 10 1 true).1.hashes = sB.hashes :=
  ⟨rfl,
   C8_hash_index_monotone.1 env0 State.initial 10 1 5 none none none _ rfl,
   rfl,
   C8_hash_index_monotone.2.1 env0 sB 10 1 5 (some 4) _ rfl,
   rfl,
   C8_hash_index_monotone.2.2 env0 sB 10 1 true _ none rfl⟩

/-- C9: a successful `create` stores the resolved controller, and along any
sequence of transitions an existing record keeps existing with its controller
unchanged — `update` can only write `controller = updater` after the
ownership check has forced `updater` to equal the stored controller, and
`set_status` copies the controller over. -/
theorem C9_controller_never_changes :
    (∀ env s origin identifier hash cid schema link s' controller,
      env.ensureOrigin origin = Except.ok controller →
      create env s origin identifier hash cid schema link = (s', none) →
      ∃ d, s'.streams identifier = some d ∧ d.controller = controller) ∧
    (∀ s s', Relation.ReflTransGen Step s s' → ∀ k d, s.streams k = some d →
      ∃ d', s'.streams k = some d' ∧ d'.controller = d.controller) := by
  constructor
  · intro env s origin identifier hash cid schema link s' controller ho hc
    obtain ⟨ctrl, s0, ho', -, -, -, -, -, -, hs'⟩ :=
      create_ok_state env s origin identifier hash cid schema link s' hc
    subst hs'
    rw [ho] at ho'
    cases Except.ok.inj ho'
    exact ⟨{ hash := hash, cid := cid, parent_cid := none, schema := schema, link := link
             controller := controller, block := env.blockNumber, revoked := false },
      by simp, rfl⟩
  · intro s s' hsteps
    induction hsteps with
    | refl => exact fun k d hk => ⟨d, hk, rfl⟩
    | tail _ hbc ih =>
      intro k d hk
      obtain ⟨d1, hd1, hc1⟩ := ih k d hk
      obtain ⟨d2, hd2, hc2⟩ := step_controller_mono _ _ hbc k d1 hd1
      exact ⟨d2, hd2, hc2.trans hc1⟩

theorem C9_controller_never_changes_witness :
    env0.ensureOrigin 10 = Except.ok 10 ∧
    create env0 State.initial 10 1 5 none none none =
      ((create env0 State.initial 10 1 5 none none none).1, none) ∧
    (∃ d, (create env0 State.initial 10 1 5 none none none).1.streams 1 = some d ∧
      d.controller = 10) ∧
    Relation.ReflTransGen Step sB (set_status env0 sB 10 1 true).1 ∧
    sB.streams 1 = some recB ∧
    (∃ d', (set_status env0 sB 10 1 true).1.streams 1 = some d' ∧
      d'.controller = recB.controller) := by
  have hstep : Step sB (set_status env0 sB 10 1 true).1 :=
    Step.set_status env0 sB 10 1 true _ none rfl
  exact ⟨rfl, rfl,
    C9_controller_never_changes.1 env0 State.initial 10 1 5 none none none _ 10 rfl rfl,
    Relation.ReflTransGen.single hstep, rfl,
    C9_controller_never_changes.2 sB _ (Relation.ReflTransGen.single hstep) 1 recB rfl⟩

/-- C10: `create` with `link = some identifier` (a self-link) never succeeds;
when the checks sequenced before the anchoring and link checks pass, it fails
with `StreamAlreadyAnchored` if the identifier already exists and with
`StreamLinkNotFound` otherwise; consequently in every reachable state no link
entry stored under a target has that target as its source. -/
theorem C10_no_self_link :
    (∀ env s origin identifier hash cid schema s',
      create env s origin identifier hash cid schema (some identifier) ≠ (s', none)) ∧
    (∀ env s origin identifier hash cid schema controller,
      env.ensureOrigin origin = Except.ok controller → hash ≠ identifier →
      (∀ c, cid = some c → env.cidIsValid c = Except.ok ()) →
      (∀ sc, schema = some sc → env.schemaStatus sc controller = Except.ok ()) →
      create env s origin identifier hash cid schema (some identifier) =
        (s, some (if (s.streams identifier).isSome then Err.StreamAlreadyAnchored
                  else Err.StreamLinkNotFound))) ∧
    (∀ s, Reachable s → ∀ t e, e ∈ s.links t → e.identifier ≠ t) := by
  refine ⟨?_, ?_, fun s hr => (reachable_good s hr).2.2⟩
  · intro env s origin identifier hash cid schema s' hc
    obtain ⟨controller, -, -, hfresh, hcase⟩ :=
      create_ok_inv env s origin identifier hash cid schema (some identifier) s' hc
    rcases hcase with ⟨hnone, -⟩ | ⟨l, ld, hl, hld, -, -⟩
    · cases hnone
    · cases Option.some.inj hl
      rw [hfresh] at hld
      cases hld
  · intro env s origin identifier hash cid schema controller ho hh hcid hsc
    rcases hx : s.streams identifier with _ | d
    · rcases cid with _ | c
      · rcases schema with _ | sc
        · simp [create, ho, if_neg hh, hx]
        · simp [create, ho, if_neg hh, hx, hsc sc rfl]
      · rcases schema with _ | sc
        · simp [create, ho, if_neg hh, hx, hcid c rfl]
        · simp [create, ho, if_neg hh, hx, hcid c rfl, hsc sc rfl]
    · rcases cid with _ | c
      · simp [create, ho, if_neg hh, hx]
      · simp [create, ho, if_neg hh, hx, hcid c rfl]

theorem C10_no_self_link_witness :
    create env0 State.initial 10 1 5 none none (some 1) ≠ (State.initial, none) ∧
    env0.ensureOrigin 10 = Except.ok 10 ∧
    create env0 State.initial 10 1 5 none none (some 1) =
      (State.initial, some Err.StreamLinkNotFound) ∧
    Reachable sLinked ∧
    ({ identifier := 1, controller := 10 } : StreamLink) ∈ sLinked.links 2 ∧
    ({ identifier := 1, controller := 10 } : StreamLink).identifier ≠ 2 := by
  have hreach : Reachable sLinked :=
    Reachable.step _ _ (Reachable.step _ _ Reachable.init
      (Step.create env0 State.initial 10 2 5 none none none sLinkBase none rfl))
      (Step.create env0 sLinkBase 10 1 6 none none (some 2) sLinked none rfl)
  have hmem : ({ identifier := 1, controller := 10 } : StreamLink) ∈ sLinked.links 2 := by
    have hval : sLinked.links 2 = [{ identifier := 1, controller := 10 }] := rfl
    rw [hval]
    exact List.mem_singleton.mpr rfl
  exact ⟨C10_no_self_link.1 env0 State.initial 10 1 5 none none State.initial, rfl,
    C10_no_self_link.2.1 env0 State.initial 10 1 5 none none 10 rfl (by decide)
      (fun c hc => by cases hc) (fun sc hsc => by cases hsc),
    hreach, hmem,
    C10_no_self_link.2.2 sLinked hreach 2 { identifier := 1, controller := 10 } hmem⟩

end Cord
